import Mathlib

/-!
Verification of the Starbase repository's import-graph extraction pipeline
(`scripts/parse-repo.mjs`), gesture interpreter (`hands.js`), credential
redaction (`parseRepo` / the `/api/parse` handler in `server.mjs`) and the
camera control state machine (`src/main.js`), as shallow Lean embeddings.

Paths are modelled as lists of segments; machine floats are modelled as
rationals, with transcendental helpers (square root, `atan2`, the wrapped
angle difference) abstracted as function parameters where the verified
properties do not depend on their values.
-/

namespace Starbase

/-- An absolute file path, as its list of path segments. -/
abbrev FPath := List String

/-- The recognized source extensions, in the insertion order of the JS
`EXTENSIONS` set in `parse-repo.mjs`. -/
def EXTENSIONS : List String := [".js", ".ts", ".jsx", ".tsx", ".mjs", ".cjs"]

/-- Node's `path.resolve(base, spec)`: split the specifier on `/` and fold it
onto the absolute base path, where an empty or `.` segment is skipped, `..`
pops one segment, and any other segment is appended. -/
def resolveSegs (base : List String) (spec : String) : List String :=
  (spec.splitOn "/").foldl
    (fun acc seg =>
      if seg = "" ∨ seg = "." then acc
      else if seg = ".." then acc.dropLast
      else acc ++ [seg])
    base

/-- JS string concatenation `target + ext` on a path: append `ext` to the
final segment. -/
def appendExt (p : List String) (ext : String) : List String :=
  p.dropLast ++ [p.getLast?.getD "" ++ ext]

/-- The ordered candidate list tried by `resolveImport`: the exact joined
path, then the path with each recognized extension appended, then the path
as a directory holding `index.<ext>` for each extension. -/
def importCandidates (target : List String) : List (List String) :=
  [target] ++ EXTENSIONS.map (appendExt target) ++
    EXTENSIONS.map (fun ext => target ++ ["index" ++ ext])

/-- `resolveImport(fromFile, specifier, allFilesSet)` from `parse-repo.mjs`:
join the specifier onto the importing file's directory and return the first
candidate present in the known file set, or `none`. -/
def resolveImport (fromFile : FPath) (specifier : String)
    (allFilesSet : List FPath) : Option FPath :=
  (importCandidates (resolveSegs fromFile.dropLast specifier)).find?
    (fun c => decide (c ∈ allFilesSet))

/-- A specifier is a resolution candidate exactly when it starts with `./`
or `../`. -/
def isRelativeSpec (s : String) : Bool :=
  s.startsWith "./" || s.startsWith "../"

/-- `addSpecifier` from `parse-repo.mjs`: if the specifier is relative and
resolves, add the resolved target to the per-file import set (JS `Set.add`,
modelled as append-if-absent, preserving insertion order). -/
def addSpecifier (spec : String) (filePath : FPath) (allFilesSet : List FPath)
    (imports : List FPath) : List FPath :=
  if isRelativeSpec spec then
    match resolveImport filePath spec allFilesSet with
    | some resolved =>
        if resolved ∈ imports then imports else imports ++ [resolved]
    | none => imports
  else imports

/-- The import set `parseFile` accumulates for one file, given the list of
specifiers its extraction pass (es-module-lexer plus the regex scans)
produced, in extraction order. -/
def parseFileImports (filePath : FPath) (specs : List String)
    (allFilesSet : List FPath) : List FPath :=
  specs.foldl (fun imports spec => addSpecifier spec filePath allFilesSet imports) []

/- ------------------------------------------------------------------ -/
/- Graph reducer (`buildDirectoryGraph` / `buildFileGraph`)            -/
/- ------------------------------------------------------------------ -/

/-- A graph link `\x7b source, target \x7d` of node ids. -/
structure GraphLink where
  source : String
  target : String
deriving DecidableEq, Repr

/-- A graph node, shared by the directory and file views. -/
structure GraphNode where
  id : String
  label : String
  category : String
  fileCount : Nat
deriving DecidableEq, Repr

/-- A graph view: nodes plus links. -/
structure Graph where
  nodes : List GraphNode
  links : List GraphLink
deriving DecidableEq, Repr

/-- Node's `path.relative(root, p)` restricted to paths below the root, the
only case the pipeline exercises (walked files live under `srcRoot`). -/
def relativeTo (root p : List String) : List String :=
  if root <+: p then p.drop root.length else p

/-- Substring test modelling JS `String.prototype.includes`. -/
def containsSub (s sub : String) : Bool :=
  decide (sub.data <:+: s.data)

/-- `assignCategory(relPath)` from `parse-repo.mjs`: first-matching path
segment heuristic over the lowercased relative path. -/
def assignCategory (relPath : String) : String :=
  let p := relPath.toLower
  let first := (p.splitOn "/").headD ""
  if first = "server" ∨ containsSub p "/server/" then "server"
  else if first = "client" ∨ containsSub p "/client/" then "client"
  else if first = "shared" ∨ containsSub p "/shared/" then "shared"
  else if first = "lib" ∨ containsSub p "/lib/" then "lib"
  else if first = "build" ∨ first = "compiler" ∨ containsSub p "/build/" ∨
    containsSub p "/compiler/" ∨ containsSub p "/trace/" then "build"
  else if first = "api" ∨ containsSub p "/api/" then "api"
  else if first = "pages" ∨ containsSub p "/pages/" then "pages"
  else if first = "export" ∨ containsSub p "/export/" then "export"
  else "other"

/-- The fixed `CATEGORY_COLORS` table: category key to (color, label). -/
def CATEGORY_COLORS (cat : String) : String × String :=
  if cat = "server" then ("#50c8dc", "Server")
  else if cat = "client" then ("#a078ff", "Client")
  else if cat = "shared" then ("#64dca0", "Shared")
  else if cat = "lib" then ("#ffb446", "Lib")
  else if cat = "build" then ("#ff6478", "Build")
  else if cat = "api" then ("#dc82dc", "API")
  else if cat = "pages" then ("#88ccff", "Pages")
  else if cat = "export" then ("#ffd866", "Export")
  else ("#999999", "Other")

/-- JS `path.basename`: the last `/`-separated segment. -/
def basenameStr (s : String) : String :=
  (s.splitOn "/").getLast?.getD ""

/-- JS `path.extname`: the suffix of the basename from its last dot, empty
when the only dot leads the basename or there is none. -/
def extnameStr (s : String) : String :=
  let base := basenameStr s
  let cs := base.data
  let dotIdxs := (List.range cs.length).filter (fun i => cs.get? i = some '.')
  match dotIdxs.getLast? with
  | some i => if i = 0 then "" else ⟨cs.drop i⟩
  | none => ""

/-- JS `path.basename(p, ext)`: the basename with a matching extension
suffix removed. -/
def basenameNoExtStr (s : String) : String :=
  let base := basenameStr s
  let ext := extnameStr s
  if ext ≠ "" ∧ base.endsWith ext then base.dropRight ext.length else base

/-- Insertion-ordered counting map update: `m.set(k, (m.get(k) ?? 0) + d)`
on a JS `Map` modelled as an association list. -/
def bumpCount {α : Type} [DecidableEq α] (m : List (α × Nat)) (k : α) (d : Nat) :
    List (α × Nat) :=
  match m with
  | [] => [(k, d)]
  | (k', v) :: rest =>
      if k' = k then (k', v + d) :: rest else (k', v) :: bumpCount rest k d

/-- JS `Set.add`, preserving insertion order. -/
def setAdd {α : Type} [DecidableEq α] (s : List α) (x : α) : List α :=
  if x ∈ s then s else s ++ [x]

/-- Lexicographic comparison of char lists by code point, modelling the JS
default sort comparator's string comparison. -/
def charListLt (a b : List Char) : Bool :=
  match a, b with
  | _, [] => false
  | [], _ :: _ => true
  | c :: cs, d :: ds =>
      if c.toNat < d.toNat then true
      else if d.toNat < c.toNat then false
      else charListLt cs ds

/-- `a` sorts no later than `b` under the JS default string comparison. -/
def strLeB (a b : String) : Bool := !(charListLt b.data a.data)

/-- The edge key `[a, b].sort()` of `parse-repo.mjs`, as the sorted pair. -/
def sortPair (a b : String) : String × String :=
  if strLeB a b then (a, b) else (b, a)

/-- `dirKey(filePath)` from `buildDirectoryGraph` (and `dirKeyForFile` in
`parseRepo`): the first two non-empty segments of the file's directory
relative to the source root, joined with `/`, or `.` at the root. -/
def dirKey (srcRoot : List String) (filePath : FPath) : String :=
  let rel := relativeTo srcRoot filePath.dropLast
  let parts := rel.filter (fun s => s ≠ "")
  let key := String.intercalate "/" (parts.take 2)
  if key = "" then "." else key

/-- The `/`-joined path of a file relative to the source root. -/
def relPathStr (srcRoot : List String) (f : FPath) : String :=
  String.intercalate "/" (relativeTo srcRoot f)

/-- The directory-edge set accumulated by `buildDirectoryGraph`: for each
edge whose endpoints collapse to different directory keys, the sorted
key pair is added to the set. -/
def dirEdgeSet (srcRoot : List String) (fileImports : List (FPath × List FPath)) :
    List (String × String) :=
  fileImports.foldl
    (fun es fi =>
      fi.2.foldl
        (fun es imp =>
          let fromDir := dirKey srcRoot fi.1
          let toDir := dirKey srcRoot imp
          if fromDir ≠ toDir then setAdd es (sortPair fromDir toDir) else es)
        es)
    []

/-- `buildDirectoryGraph(allFiles, fileImports, srcRoot)`. -/
def buildDirectoryGraph (allFiles : List FPath)
    (fileImports : List (FPath × List FPath)) (srcRoot : List String) : Graph :=
  let dirFiles := allFiles.foldl (fun m f => bumpCount m (dirKey srcRoot f) 1) []
  let nodes := dirFiles.map (fun dc =>
    { id := dc.1,
      label := if dc.1 = "." then "src (root)"
        else if basenameStr dc.1 = "" then dc.1 else basenameStr dc.1,
      category := assignCategory (dc.1 ++ "/"),
      fileCount := dc.2 : GraphNode })
  let links := (dirEdgeSet srcRoot fileImports).map
    (fun e => { source := e.1, target := e.2 : GraphLink })
  ⟨nodes, links⟩

/-- The connectivity map of `buildFileGraph`: each importing file is bumped
by its out-degree (its import-set size) and each import target by one. -/
def fileConnCount (fileImports : List (FPath × List FPath)) : List (FPath × Nat) :=
  fileImports.foldl
    (fun m fi => fi.2.foldl (fun m imp => bumpCount m imp 1) (bumpCount m fi.1 fi.2.length))
    []

/-- The kept entries of `buildFileGraph`: connectivity entries sorted by
descending count (JS stable sort with comparator `b[1] - a[1]`), truncated
to the `maxFiles` cap. -/
def fileKeptEntries (fileImports : List (FPath × List FPath)) (maxFiles : Nat) :
    List (FPath × Nat) :=
  ((fileConnCount fileImports).mergeSort (fun a b => decide (b.2 ≤ a.2))).take maxFiles

/-- The link accumulation of `buildFileGraph`: the dedup key set (sorted id
pairs) alongside the emitted links, which keep the original orientation. -/
def fileLinkState (srcRoot : List String) (fileImports : List (FPath × List FPath))
    (kept : List FPath) : List (String × String) × List GraphLink :=
  fileImports.foldl
    (fun acc fi =>
      if fi.1 ∈ kept then
        fi.2.foldl
          (fun acc imp =>
            if imp ∈ kept then
              let fromId := relPathStr srcRoot fi.1
              let toId := relPathStr srcRoot imp
              let key := sortPair fromId toId
              if key ∈ acc.1 then acc
              else (acc.1 ++ [key], acc.2 ++ [⟨fromId, toId⟩])
            else acc)
          acc
      else acc)
    ([], [])

/-- `buildFileGraph(allFiles, fileImports, srcRoot)` with the `maxFiles`
top-N cap (the source reads the cap from module scope; here it is passed
explicitly). `allFiles` is accepted but unused, as in the source. -/
def buildFileGraph (allFiles : List FPath) (fileImports : List (FPath × List FPath))
    (srcRoot : List String) (maxFiles : Nat) : Graph :=
  let sorted := fileKeptEntries fileImports maxFiles
  let kept := sorted.map Prod.fst
  let nodes := sorted.map (fun fc =>
    let rel := relPathStr srcRoot fc.1
    { id := rel, label := basenameNoExtStr rel, category := assignCategory rel,
      fileCount := 1 : GraphNode })
  let _ := allFiles
  ⟨nodes, (fileLinkState srcRoot fileImports kept).2⟩

/-- Metadata of the returned graph document. -/
structure RepoMeta where
  repo : String
  mode : String
  pathPrefix : String
  nodeCount : Nat
  linkCount : Nat
deriving DecidableEq, Repr

/-- The graph document returned by `parseRepo`. -/
structure RepoDoc where
  meta : RepoMeta
  categories : List (String × (String × String))
  nodes : List GraphNode
  links : List GraphLink
  fileNodes : List GraphNode
  fileLinks : List GraphLink
  fileToDirMap : List (String × String)
deriving DecidableEq, Repr

/-- The pure tail of `parseRepo` in `parse-repo.mjs`: after clone and walk,
assemble the graph document from the walked files and their import sets.
Both views are always built; `meta` takes its counts from the directory
graph. -/
def parseRepo (repo sparseDir mode : String) (maxFiles : Nat)
    (allFiles : List FPath) (fileImports : List (FPath × List FPath))
    (srcRoot : List String) : RepoDoc :=
  let dirGraph := buildDirectoryGraph allFiles fileImports srcRoot
  let fileGraph := buildFileGraph allFiles fileImports srcRoot maxFiles
  let usedCats := (dirGraph.nodes.map (·.category) ++
    fileGraph.nodes.map (·.category)).foldl setAdd []
  let meta0 : RepoMeta :=
    { repo := repo, mode := mode, pathPrefix := sparseDir,
      nodeCount := dirGraph.nodes.length, linkCount := dirGraph.links.length }
  { meta := meta0,
    categories := usedCats.map (fun c => (c, CATEGORY_COLORS c)),
    nodes := dirGraph.nodes,
    links := dirGraph.links,
    fileNodes := fileGraph.nodes,
    fileLinks := fileGraph.links,
    fileToDirMap := allFiles.map (fun f => (relPathStr srcRoot f, dirKey srcRoot f)) }

/-- A well-formed edge key: a sorted pair with distinct components. -/
abbrev goodEdge (e : String × String) : Prop :=
  strLeB e.1 e.2 = true ∧ e.1 ≠ e.2

/-- An edge-key list of well-formed keys without duplicates. -/
abbrev goodEdgeSet (es : List (String × String)) : Prop :=
  (∀ e ∈ es, goodEdge e) ∧ es.Nodup

/-- The dedup-key set of `buildFileGraph` tracks the emitted links exactly:
it is the list of sorted id pairs of the links, and it has no duplicates. -/
abbrev fileLinkInv (st : List (String × String) × List GraphLink) : Prop :=
  st.1 = st.2.map (fun l => sortPair l.source l.target) ∧ st.1.Nodup

/-- Two links name the same unordered node pair. -/
abbrev sameUnordPair (l1 l2 : GraphLink) : Prop :=
  (l1.source = l2.source ∧ l1.target = l2.target) ∨
    (l1.source = l2.target ∧ l1.target = l2.source)

/-- A link list has no duplicate unordered pairs. -/
abbrev noDupUnordered (ls : List GraphLink) : Prop :=
  ls.Pairwise (fun l1 l2 => ¬ sameUnordPair l1 l2)

/- ------------------------------------------------------------------ -/
/- Gesture interpreter (`hands.js`)                                    -/
/- ------------------------------------------------------------------ -/

/-- A hand landmark: normalized coordinates plus depth, as rationals. -/
structure Landmark where
  x : ℚ
  y : ℚ
  z : ℚ
deriving DecidableEq

/-- The transcendental helpers of `hands.js` abstracted as parameters:
`sqrtQ` stands for `Math.sqrt` inside `dist`, `atan2Q` for `Math.atan2`,
and `angleDeltaQ` for `angleDelta` (the difference wrapped into (-pi, pi],
whose wrap bound is the irrational pi). Every verified property holds for
every choice of these functions. -/
structure NumEnv where
  sqrtQ : ℚ → ℚ
  atan2Q : ℚ → ℚ → ℚ
  angleDeltaQ : ℚ → ℚ → ℚ

/-- A degenerate instantiation of the abstract helpers, used to evaluate
the model on concrete inputs. -/
def envZero : NumEnv := ⟨fun _ => 0, fun _ _ => 0, fun _ _ => 0⟩

/-- `lerp(a, b, t)` from `hands.js`. -/
def lerp (a b t : ℚ) : ℚ := a + (b - a) * t

/-- The smoothing factor `LERP = 0.25`. -/
def LERP : ℚ := 1/4

/-- `dist(a, b)` from `hands.js`, with the square root abstracted. -/
def distQ (env : NumEnv) (a b : Landmark) : ℚ :=
  env.sqrtQ ((a.x - b.x) ^ 2 + (a.y - b.y) ^ 2)

/-- Per-hand state, as initialized in the `handState` table. -/
structure HandSt where
  smoothX : ℚ
  smoothY : ℚ
  smoothPinch : ℚ
  smoothKnobAngle : ℚ
  smoothHandSize : ℚ
  prevKnobAngle : Option ℚ
  wasPinching : Bool
  activated : Bool
deriving DecidableEq

/-- The initial per-hand state of `handState.left` / `handState.right`. -/
def initHandSt : HandSt :=
  { smoothX := 1/2, smoothY := 1/2, smoothPinch := 1, smoothKnobAngle := 0,
    smoothHandSize := 1/4, prevKnobAngle := none, wasPinching := false,
    activated := false }

/-- The two-hand state table `handState`. -/
structure HandsState where
  left : HandSt
  right : HandSt
deriving DecidableEq

/-- A gesture event. Absent JS fields (undefined, falsy at the consumer)
are modelled by the zero/false defaults. -/
structure GestureEvent where
  panX : ℚ := 0
  panY : ℚ := 0
  isPinching : Bool := false
  knobDelta : ℚ := 0
  handSize : ℚ := 0
  isLeftHand : Bool := false
  isRightHand : Bool := false
  detected : Bool := false
  handsJoined : Bool := false
deriving DecidableEq

/-- `handedness?.[0]?.categoryName || 'Right'`: a missing or empty label
falls back to `"Right"`. -/
def handLabel (handedness : Option String) : String :=
  match handedness with
  | none => "Right"
  | some s => if s = "" then "Right" else s

/-- `isPalmUp(lm, handedness)` from `hands.js`: wrist not above the middle
base, at least 3 of 4 non-thumb fingers extended, and the palm normal
(cross product sign) facing the camera for the given handedness. -/
def isPalmUp (lm : Nat → Landmark) (label : String) : Bool :=
  let wrist := lm 0
  let middleMcp := lm 9
  if wrist.y < middleMcp.y then false
  else
    let fingers : List (Nat × Nat) := [(8, 6), (12, 10), (16, 14), (20, 18)]
    let extended := (fingers.filter (fun f => (lm f.1).y < (lm f.2).y)).length
    if extended < 3 then false
    else
      let indexMcp := lm 5
      let pinkyMcp := lm 17
      let ax := indexMcp.x - wrist.x
      let ay := indexMcp.y - wrist.y
      let bx := pinkyMcp.x - wrist.x
      let py := pinkyMcp.y - wrist.y
      let cross := ax * py - ay * bx
      if label = "Right" then decide (cross < 0) else decide (cross > 0)

/-- The pinch-enter threshold `PINCH_ENTER = 0.22`. -/
def PINCH_ENTER : ℚ := 11/50

/-- The pinch-exit threshold `PINCH_EXIT = 0.32`. -/
def PINCH_EXIT : ℚ := 8/25

/-- The hysteresis step of `processHand`: entering pinch requires the
smoothed distance below the tighter threshold, staying requires it below
the looser one. -/
def pinchStep (wasPinching : Bool) (smoothPinch : ℚ) : Bool :=
  if wasPinching then decide (smoothPinch < PINCH_EXIT)
  else decide (smoothPinch < PINCH_ENTER)

/-- The pinch flag after the first `i` smoothed distances of a per-hand
frame sequence, starting from the initial non-pinching state. -/
def pinchFlagPrefix (ds : List ℚ) (i : Nat) : Bool :=
  (ds.take i).foldl pinchStep false

/-- The active-hand body of `processHand` (everything after the activation
gate): smoothing, pinch hysteresis, knob angle, and the emitted event.
`activated` is the freshly computed activation flag stored back into the
state. -/
def processActiveHand (env : NumEnv) (lm : Nat → Landmark)
    (handedness : Option String) (st : HandSt) (activated : Bool) :
    HandSt × Option GestureEvent :=
  let label := handLabel handedness
  let isLeftHand := label = "Right"
  let thumbTip := lm 4
    let indexTip := lm 8
    let middleTip := lm 12
    let wrist := lm 0
    let palmX := ((lm 0).x + (lm 5).x + (lm 9).x + (lm 13).x + (lm 17).x) / 5
    let palmY := ((lm 0).y + (lm 5).y + (lm 9).y + (lm 13).y + (lm 17).y) / 5
    let handSize := distQ env wrist middleTip
    let pinchDist := distQ env thumbTip indexTip / handSize
    let smoothX := lerp st.smoothX palmX LERP
    let smoothY := lerp st.smoothY palmY LERP
    let smoothPinch := lerp st.smoothPinch pinchDist LERP
    let smoothHandSize := lerp st.smoothHandSize handSize LERP
    let isPinching := pinchStep st.wasPinching smoothPinch
    let knobAngle := env.atan2Q (indexTip.y - thumbTip.y) (indexTip.x - thumbTip.x)
    let smoothKnobAngle := lerp st.smoothKnobAngle knobAngle (3/10)
    let knobDelta :=
      if isPinching then
        match st.prevKnobAngle with
        | some prev => if st.wasPinching then env.angleDeltaQ smoothKnobAngle prev else 0
        | none => 0
      else 0
    let prevKnobAngle := if isPinching then some smoothKnobAngle else none
    let st' : HandSt :=
      { smoothX := smoothX, smoothY := smoothY, smoothPinch := smoothPinch,
        smoothKnobAngle := smoothKnobAngle, smoothHandSize := smoothHandSize,
        prevKnobAngle := prevKnobAngle, wasPinching := isPinching,
        activated := activated }
    let ev : GestureEvent :=
      { panX := (smoothX - 1/2) * 2, panY := -(smoothY - 1/2) * 2,
        isPinching := isPinching, knobDelta := knobDelta,
        handSize := smoothHandSize, isLeftHand := isLeftHand,
        isRightHand := !isLeftHand, detected := true, handsJoined := false }
    (st', some ev)

/-- `processHand(lm, handedness, yOffset)` from `hands.js`, without the
canvas drawing: activate on a shown palm, return `none` while not yet
activated, otherwise run the active-hand body. -/
def processHand (env : NumEnv) (lm : Nat → Landmark)
    (handedness : Option String) (st : HandSt) : HandSt × Option GestureEvent :=
  if !(st.activated || isPalmUp lm (handLabel handedness)) then
    ({ st with activated := st.activated || isPalmUp lm (handLabel handedness) },
     none)
  else
    processActiveHand env lm handedness st
      (st.activated || isPalmUp lm (handLabel handedness))

/-- One observed hand of a detection frame: landmarks and handedness. -/
structure HandObs where
  lm : Nat → Landmark
  handedness : Option String

/-- Processing of one observed hand inside `detect()`'s loop: route to the
keyed state (MediaPipe label `"Right"` is the user's left hand), update it,
and append the event when `processHand` returned one. -/
def detectHandStep (env : NumEnv) (acc : HandsState × List GestureEvent)
    (obs : HandObs) : HandsState × List GestureEvent :=
  if handLabel obs.handedness = "Right" then
    ({ acc.1 with left := (processHand env obs.lm obs.handedness acc.1.left).1 },
     match (processHand env obs.lm obs.handedness acc.1.left).2 with
     | some e => acc.2 ++ [e]
     | none => acc.2)
  else
    ({ acc.1 with right := (processHand env obs.lm obs.handedness acc.1.right).1 },
     match (processHand env obs.lm obs.handedness acc.1.right).2 with
     | some e => acc.2 ++ [e]
     | none => acc.2)

/-- One frame of `detect()`: with landmarks present each hand is processed
in order; with none, both hands reset activation and pinch tracking and a
single `detected:false` event is emitted. -/
def detectStep (env : NumEnv) (s : HandsState) (frame : List HandObs) :
    HandsState × List GestureEvent :=
  match frame with
  | [] =>
      let lreset : HandSt :=
        { s.left with
          activated := false, prevKnobAngle := none, wasPinching := false }
      let rreset : HandSt :=
        { s.right with
          activated := false, prevKnobAngle := none, wasPinching := false }
      (⟨lreset, rreset⟩, [{ detected := false }])
  | _ :: _ => frame.foldl (detectHandStep env) (s, [])

/-- Landmarks of a hand showing its palm under the MediaPipe label
`"Right"` (the user's left hand): wrist below the middle base, all four
fingers extended, negative cross product. -/
def lmPalmRight : Nat → Landmark := fun i =>
  if i = 0 then ⟨1/2, 9/10, 0⟩
  else if i = 9 then ⟨1/2, 1/2, 0⟩
  else if i = 8 ∨ i = 12 ∨ i = 16 ∨ i = 20 then ⟨1/2, 3/10, 0⟩
  else if i = 6 ∨ i = 10 ∨ i = 14 ∨ i = 18 then ⟨1/2, 2/5, 0⟩
  else if i = 5 then ⟨3/5, 1/2, 0⟩
  else if i = 17 then ⟨2/5, 1/2, 0⟩
  else ⟨1/2, 1/2, 0⟩

/-- Landmarks of a hand showing its palm under the MediaPipe label
`"Left"` (the user's right hand): mirrored knuckles, positive cross
product, at the same palm position as `lmPalmRight`. -/
def lmPalmLeft : Nat → Landmark := fun i =>
  if i = 0 then ⟨1/2, 9/10, 0⟩
  else if i = 9 then ⟨1/2, 1/2, 0⟩
  else if i = 8 ∨ i = 12 ∨ i = 16 ∨ i = 20 then ⟨1/2, 3/10, 0⟩
  else if i = 6 ∨ i = 10 ∨ i = 14 ∨ i = 18 then ⟨1/2, 2/5, 0⟩
  else if i = 5 then ⟨2/5, 1/2, 0⟩
  else if i = 17 then ⟨3/5, 1/2, 0⟩
  else ⟨1/2, 1/2, 0⟩

/-- A detection frame in which both hands are present at the same palm
position (hands brought together), palms shown. -/
def frameHandsTogether : List HandObs :=
  [⟨lmPalmRight, some "Right"⟩, ⟨lmPalmLeft, some "Left"⟩]

/- ------------------------------------------------------------------ -/
/- Camera control state machine (`src/main.js`)                        -/
/- ------------------------------------------------------------------ -/

/-- The camera-control module state of `main.js`: activation flags, the
external orbit controls (with a counter of disabled-to-enabled
transitions), the pending `setTimeout` deadlines (in ms), and the gesture
targets and drag anchors. -/
structure CamState where
  handActive : Bool
  handControlling : Bool
  controlsEnabled : Bool
  autoRotate : Bool
  enableCount : Nat
  noHandTimer : Option ℚ
  resetCooldown : Option ℚ
  tOrbitX : ℚ
  tOrbitY : ℚ
  tOrbitDist : ℚ
  tLookX : ℚ
  tLookY : ℚ
  rotAnchorX : Option ℚ
  rotAnchorY : Option ℚ
  rotBaseX : ℚ
  rotBaseY : ℚ
  panAnchorX : Option ℚ
  panAnchorY : Option ℚ
  panBaseX : ℚ
  panBaseY : ℚ
deriving DecidableEq

/-- The module-scope initial camera state of `main.js`. -/
def initCamState : CamState :=
  { handActive := false, handControlling := false, controlsEnabled := true,
    autoRotate := true, enableCount := 0, noHandTimer := none,
    resetCooldown := none, tOrbitX := 0, tOrbitY := 3/10, tOrbitDist := 180,
    tLookX := 0, tLookY := 0, rotAnchorX := none, rotAnchorY := none,
    rotBaseX := 0, rotBaseY := 0, panAnchorX := none, panAnchorY := none,
    panBaseX := 0, panBaseY := 0 }

/-- `ROT_SCALE = 3`. -/
def ROT_SCALE : ℚ := 3

/-- `PAN_SCALE = 300`. -/
def PAN_SCALE : ℚ := 300

/-- `ZOOM_NEAR = 0.45`. -/
def ZOOM_NEAR : ℚ := 9/20

/-- `ZOOM_FAR = 0.15`. -/
def ZOOM_FAR : ℚ := 3/20

/-- `DIST_MIN = 30`. -/
def DIST_MIN : ℚ := 30

/-- `DIST_MAX = 600`. -/
def DIST_MAX : ℚ := 600

/-- `NO_HAND_TIMEOUT = 3000` ms. -/
def NO_HAND_TIMEOUT : ℚ := 3000

/-- The recenter rate-limit window, 1500 ms. -/
def RESET_COOLDOWN_MS : ℚ := 1500

/-- `deactivateHands()` from `main.js`, restricted to the camera-module
state (stopping the video capture and the camera fly-to act on excluded
collaborators): clear activation and the timer, re-enable the external
controls and auto-rotation. `enableCount` registers the transition when the
controls had been disabled. -/
def deactivateHands (s : CamState) : CamState :=
  { s with
    handActive := false, handControlling := false, noHandTimer := none,
    controlsEnabled := true, autoRotate := true,
    enableCount := if s.controlsEnabled then s.enableCount else s.enableCount + 1 }

/-- The left-hand block of `handleGesture`: anchor-based rotation targets
(re-anchoring when the anchor is clear), the vertical clamp to ±0.45·pi
(`piQ` models the irrational `Math.PI`), and the proximity zoom mapping of
hand size onto the orbit-distance range. The `handSize !== undefined` guard
always holds for the events the interpreter emits. -/
def leftHandUpdate (piQ : ℚ) (s : CamState) (e : GestureEvent) : CamState :=
  let s :=
    if s.rotAnchorX = none then
      { s with
        rotAnchorX := some e.panX, rotAnchorY := some e.panY,
        rotBaseX := s.tOrbitX, rotBaseY := s.tOrbitY }
    else s
  let ty := s.rotBaseY - (e.panY - s.rotAnchorY.getD 0) * ROT_SCALE
  let s :=
    { s with
      tOrbitX := s.rotBaseX + (e.panX - s.rotAnchorX.getD 0) * ROT_SCALE,
      tOrbitY := max (-(piQ * 45/100)) (min (piQ * 45/100) ty) }
  let tt := max 0 (min 1 ((e.handSize - ZOOM_FAR) / (ZOOM_NEAR - ZOOM_FAR)))
  { s with tOrbitDist := DIST_MAX - tt * (DIST_MAX - DIST_MIN) }

/-- The right-hand block of `handleGesture`: pinch drives anchor-based pan
targets (clearing the rotation anchor), an open hand drives rotation
targets exactly as the left hand does. -/
def rightHandUpdate (piQ : ℚ) (s : CamState) (e : GestureEvent) : CamState :=
  if e.isPinching = true then
    let s := { s with rotAnchorX := none, rotAnchorY := none }
    let s :=
      if s.panAnchorX = none then
        { s with
          panAnchorX := some e.panX, panAnchorY := some e.panY,
          panBaseX := s.tLookX, panBaseY := s.tLookY }
      else s
    { s with
      tLookX := s.panBaseX + (e.panX - s.panAnchorX.getD 0) * PAN_SCALE,
      tLookY := s.panBaseY + (e.panY - s.panAnchorY.getD 0) * PAN_SCALE }
  else
    let s := { s with panAnchorX := none, panAnchorY := none }
    let s :=
      if s.rotAnchorX = none then
        { s with
          rotAnchorX := some e.panX, rotAnchorY := some e.panY,
          rotBaseX := s.tOrbitX, rotBaseY := s.tOrbitY }
      else s
    let ty := s.rotBaseY - (e.panY - s.rotAnchorY.getD 0) * ROT_SCALE
    { s with
      tOrbitX := s.rotBaseX + (e.panX - s.rotAnchorX.getD 0) * ROT_SCALE,
      tOrbitY := max (-(piQ * 45/100)) (min (piQ * 45/100) ty) }

/-- `handleGesture(event)` from `main.js`, at time `t` (ms): an accepted
hands-joined event recenters and starts the 1.5 s cooldown; a no-hand event
stops controlling, clears the anchors and arms the 3 s auto-off timer when
control is active and none is pending; a detected event cancels the timer,
takes control (disabling the external controls) and runs the per-hand
blocks. -/
def handleGesture (piQ : ℚ) (s : CamState) (t : ℚ) (e : GestureEvent) : CamState :=
  if e.handsJoined = true ∧ s.resetCooldown = none then
    { s with
      resetCooldown := some (t + RESET_COOLDOWN_MS),
      tOrbitX := 0, tOrbitY := 3/10, tLookX := 0, tLookY := 0,
      rotAnchorX := none, rotAnchorY := none,
      panAnchorX := none, panAnchorY := none }
  else if e.detected = false then
    { s with
      handControlling := false,
      rotAnchorX := none, rotAnchorY := none,
      panAnchorX := none, panAnchorY := none,
      noHandTimer :=
        if s.noHandTimer = none ∧ s.handActive = true then some (t + NO_HAND_TIMEOUT)
        else s.noHandTimer }
  else
    let s1 : CamState :=
      { s with
        noHandTimer := none, handControlling := true,
        controlsEnabled := false, autoRotate := false }
    let s2 := if e.isLeftHand = true then leftHandUpdate piQ s1 e else s1
    if e.isRightHand = true then rightHandUpdate piQ s2 e else s2

/-- Fire a due `setTimeout(.., 1500)` cooldown clear: `resetCooldown`
becomes inactive once its deadline is reached. -/
def fireCooldown (s : CamState) (t : ℚ) : CamState :=
  match s.resetCooldown with
  | some d => if d ≤ t then { s with resetCooldown := none } else s
  | none => s

/-- Fire a due `setTimeout(deactivateHands, 3000)`. -/
def fireNoHandTimer (s : CamState) (t : ℚ) : CamState :=
  match s.noHandTimer with
  | some d => if d ≤ t then deactivateHands s else s
  | none => s

/-- Deliver the timer callbacks due at time `t`. -/
def fireTimers (s : CamState) (t : ℚ) : CamState :=
  fireNoHandTimer (fireCooldown s t) t

/-- One event delivery at time `t`: due timers fire first, then the event
is handled. -/
def stepAt (piQ : ℚ) (s : CamState) (t : ℚ) (e : GestureEvent) : CamState :=
  handleGesture piQ (fireTimers s t) t e

/-- Deliver a timed event trace. -/
def runTrace (piQ : ℚ) (s : CamState) (evs : List (ℚ × GestureEvent)) : CamState :=
  evs.foldl (fun s te => stepAt piQ s te.1 te.2) s

/-- The five gesture targets of the camera. -/
def camTargets (s : CamState) : ℚ × ℚ × ℚ × ℚ × ℚ :=
  (s.tOrbitX, s.tOrbitY, s.tOrbitDist, s.tLookX, s.tLookY)

/-- The control-flow fields of the camera state: activation, pending
auto-off timer, enable-transition count, and the external controls. -/
def camCtl (s : CamState) : Bool × Option ℚ × Nat × Bool × Bool :=
  (s.handActive, s.noHandTimer, s.enableCount, s.controlsEnabled, s.handControlling)

/-- A camera state in the HandControlling configuration: gesture control
active and the external orbit controls disabled. -/
def handControllingState : CamState :=
  { initCamState with handActive := true, controlsEnabled := false }

/-- The `\x7b handsJoined: true \x7d` recenter signal. -/
def handsJoinedEvent : GestureEvent := { handsJoined := true }

/-- The `\x7b detected: false \x7d` no-hand event. -/
def noHandEvent : GestureEvent := { detected := false }

/-- The deactivated (Idle) outcome relative to a starting state: hand
control off, no pending timer, external controls re-enabled with
auto-rotation, and exactly one disabled-to-enabled transition recorded. -/
abbrev idleDone (s0 s : CamState) : Prop :=
  s.handActive = false ∧ s.noHandTimer = none ∧ s.controlsEnabled = true ∧
    s.autoRotate = true ∧ s.enableCount = s0.enableCount + 1

/-- The two phases between the first no-hand frame and re-activation:
either the auto-off timer is pending at deadline `dl` with control still
active and the external controls disabled, or deactivation has happened. -/
abbrev idlePhase (s0 : CamState) (dl : ℚ) (s : CamState) : Prop :=
  (s.handActive = true ∧ s.noHandTimer = some dl ∧ s.controlsEnabled = false ∧
    s.enableCount = s0.enableCount) ∨ idleDone s0 s

/- ------------------------------------------------------------------ -/
/- Credential redaction (`parseRepo` clone error path, `/api/parse`)   -/
/- ------------------------------------------------------------------ -/

/-- Generic left-to-right, non-overlapping global regex replacement: the
matcher reports the length of a match at the head of the remaining text.
Every matcher used here consumes at least one character; the `max n 1`
guard only serves termination. -/
def replaceScan (matcher : List Char → Option Nat) (repl : List Char) :
    List Char → List Char
  | [] => []
  | c :: cs =>
      match matcher (c :: cs) with
      | some n => repl ++ replaceScan matcher repl ((c :: cs).drop (max n 1))
      | none => c :: replaceScan matcher repl cs
termination_by s => s.length
decreasing_by
  · simp only [List.length_drop, List.length_cons]
    omega
  · simp

/-- The head match of `/x-access-token:[^@]+@/` (the redaction applied to
the git stderr in `parseRepo`), as the matched length. -/
def cloneRedactMatchLen (s : List Char) : Option Nat :=
  if "x-access-token:".data <+: s then
    let body := (s.drop ("x-access-token:".data).length).takeWhile
      (fun c => decide (c ≠ '@'))
    if body.length = 0 then none
    else if (s.drop (("x-access-token:".data).length + body.length)).head? = some '@'
      then some (("x-access-token:".data).length + body.length + 1)
    else none
  else none

/-- `stderr.replace(/x-access-token:[^@]+@/g, 'x-access-token:***@')`. -/
def redactCloneStderr (s : List Char) : List Char :=
  replaceScan cloneRedactMatchLen ("x-access-token:***@".data) s

/-- A JS `\w` word character. -/
def isWordChar (c : Char) : Bool := c.isAlphanum || c = '_'

/-- The head match of `/gho_\w+/` (first server-side redaction). -/
def ghoMatchLen (s : List Char) : Option Nat :=
  if "gho_".data <+: s then
    let body := (s.drop ("gho_".data).length).takeWhile isWordChar
    if body.length = 0 then none else some (("gho_".data).length + body.length)
  else none

/-- The head match of `/x-access-token:[^@\s]+/` (second server-side
redaction). -/
def xTokenMatchLen (s : List Char) : Option Nat :=
  if "x-access-token:".data <+: s then
    let body := (s.drop ("x-access-token:".data).length).takeWhile
      (fun c => decide (c ≠ '@') && !c.isWhitespace)
    if body.length = 0 then none
    else some (("x-access-token:".data).length + body.length)
  else none

/-- The `/api/parse` coalescing handler's redaction:
`msg.replace(/gho_\w+/g, '***').replace(/x-access-token:[^@\s]+/g, '***')`. -/
def serverRedact (s : List Char) : List Char :=
  replaceScan xTokenMatchLen ("***".data)
    (replaceScan ghoMatchLen ("***".data) s)

/-- The authenticated clone URL built by `parseRepo` when a token is
given. -/
def cloneUrl (token repo : List Char) : List Char :=
  "https://x-access-token:".data ++ token ++ "@github.com/".data ++ repo ++
    ".git".data

/-- Node's `execSync` failure message for the clone invocation:
`Command failed: <command>`, where the command embeds the authenticated
URL. -/
def commandFailedMsg (token repo cloneDir : List Char) : List Char :=
  "Command failed: git clone --depth 1 --filter=blob:none --sparse \"".data ++
    cloneUrl token repo ++ "\" \"".data ++ cloneDir ++ "\"".data

/-- The message of the error `parseRepo` throws when the clone fails:
the redacted stderr when non-empty, otherwise — via `stderr || err.message`
— the raw `execSync` message, which is not redacted. -/
def parseRepoCloneErrorMsg (token repo cloneDir stderrRaw : List Char) :
    List Char :=
  let stderr := redactCloneStderr stderrRaw
  "git clone failed: ".data ++
    (if stderr = [] then commandFailedMsg token repo cloneDir else stderr)

/- ------------------------------------------------------------------ -/
/- Lemmas about the resolver                                           -/
/- ------------------------------------------------------------------ -/

theorem mem_addSpecifier {spec : String} {f : FPath} {files : List FPath}
    {imports : List FPath} {B : FPath} :
    B ∈ addSpecifier spec f files imports ↔
      B ∈ imports ∨
        (isRelativeSpec spec = true ∧ resolveImport f spec files = some B) := by
  by_cases hrel : isRelativeSpec spec = true
  · cases hres : resolveImport f spec files with
    | none => simp [addSpecifier, hrel, hres]
    | some r =>
        by_cases hmem : r ∈ imports
        · simp only [addSpecifier, hrel, if_true, hres, if_pos hmem]
          constructor
          · exact fun h => Or.inl h
          · rintro (h | ⟨-, h⟩)
            · exact h
            · cases Option.some.inj h; exact hmem
        · simp only [addSpecifier, hrel, if_true, hres, if_neg hmem,
            List.mem_append, List.mem_singleton]
          constructor
          · rintro (h | rfl)
            · exact Or.inl h
            · exact Or.inr ⟨by trivial, rfl⟩
          · rintro (h | ⟨-, h⟩)
            · exact Or.inl h
            · cases Option.some.inj h; exact Or.inr rfl
  · simp [addSpecifier, hrel]

theorem nodup_addSpecifier {spec : String} {f : FPath} {files : List FPath}
    {imports : List FPath} (h : imports.Nodup) :
    (addSpecifier spec f files imports).Nodup := by
  unfold addSpecifier
  split
  · cases hres : resolveImport f spec files with
    | none => simpa using h
    | some r =>
        by_cases hmem : r ∈ imports
        · simpa [hmem] using h
        · simpa [hmem] using List.Nodup.append h (List.nodup_singleton r)
            (by simpa using hmem)
  · exact h

theorem mem_parseFileImports_fold {f : FPath} {files : List FPath} {B : FPath} :
    ∀ (specs : List String) (init : List FPath),
      B ∈ specs.foldl (fun imports spec => addSpecifier spec f files imports) init ↔
        B ∈ init ∨ ∃ spec ∈ specs,
          isRelativeSpec spec = true ∧ resolveImport f spec files = some B := by
  intro specs
  induction specs with
  | nil => intro init; simp
  | cons s rest ih =>
      intro init
      simp only [List.foldl_cons]
      rw [ih]
      rw [mem_addSpecifier]
      constructor
      · rintro ((h | h) | ⟨sp, hsp, hprop⟩)
        · exact Or.inl h
        · exact Or.inr ⟨s, List.mem_cons_self s rest, h⟩
        · exact Or.inr ⟨sp, List.mem_cons_of_mem s hsp, hprop⟩
      · rintro (h | ⟨sp, hsp, hprop⟩)
        · exact Or.inl (Or.inl h)
        · rcases List.mem_cons.mp hsp with rfl | hsp'
          · exact Or.inl (Or.inr hprop)
          · exact Or.inr ⟨sp, hsp', hprop⟩

theorem nodup_parseFileImports_fold {f : FPath} {files : List FPath} :
    ∀ (specs : List String) (init : List FPath), init.Nodup →
      (specs.foldl (fun imports spec => addSpecifier spec f files imports) init).Nodup := by
  intro specs
  induction specs with
  | nil => intro init h; simpa using h
  | cons s rest ih =>
      intro init h
      simp only [List.foldl_cons]
      exact ih _ (nodup_addSpecifier h)

/-- C1: Import Resolver contract. For every file and every extracted
specifier list: (1) an edge to `B` is produced if and only if some extracted
specifier starts with `./` or `../` and resolves to `B`; (2) when a specifier
resolves to `B`, `B` is the first candidate — exact path, then each extension
appended, then each directory index file, in order — present in the known
file set, every earlier candidate being absent (an unmatched specifier
yields `none`, hence no edge and no error); (3) the per-file result is
duplicate-free, so a repeated import statement or specifier yields the edge
at most once. -/
theorem c1_import_resolver_contract (filePath : FPath) (specs : List String)
    (allFilesSet : List FPath) (B : FPath) :
    (B ∈ parseFileImports filePath specs allFilesSet ↔
      ∃ spec ∈ specs, isRelativeSpec spec = true ∧
        resolveImport filePath spec allFilesSet = some B) ∧
    (∀ spec : String, resolveImport filePath spec allFilesSet = some B →
      B ∈ allFilesSet ∧
      ∃ pre post,
        importCandidates (resolveSegs filePath.dropLast spec) = pre ++ B :: post ∧
        ∀ c ∈ pre, c ∉ allFilesSet) ∧
    (parseFileImports filePath specs allFilesSet).Nodup := by
  refine ⟨?_, ?_, ?_⟩
  · rw [parseFileImports, mem_parseFileImports_fold]
    simp
  · intro spec h
    rw [resolveImport, List.find?_eq_some] at h
    obtain ⟨hB, pre, post, heq, hpre⟩ := h
    refine ⟨by simpa using hB, pre, post, heq, ?_⟩
    intro c hc
    have := hpre c hc
    simpa using this
  · exact nodup_parseFileImports_fold specs [] List.nodup_nil

/- ------------------------------------------------------------------ -/
/- Lemmas about the graph reducer                                      -/
/- ------------------------------------------------------------------ -/

theorem mem_setAdd {α : Type} [DecidableEq α] {s : List α} {x y : α} :
    y ∈ setAdd s x ↔ y ∈ s ∨ y = x := by
  unfold setAdd
  by_cases h : x ∈ s
  · rw [if_pos h]
    constructor
    · exact fun hy => Or.inl hy
    · rintro (hy | rfl)
      · exact hy
      · exact h
  · rw [if_neg h]
    simp [List.mem_append]

theorem nodup_setAdd {α : Type} [DecidableEq α] {s : List α} {x : α}
    (h : s.Nodup) : (setAdd s x).Nodup := by
  unfold setAdd
  by_cases hx : x ∈ s
  · rwa [if_pos hx]
  · rw [if_neg hx]
    exact h.append (List.nodup_singleton x)
      (fun a ha hax => hx ((List.mem_singleton.mp hax) ▸ ha))

theorem foldl_preserve {α β : Type} {P : α → Prop} (f : α → β → α)
    (hf : ∀ a b, P a → P (f a b)) :
    ∀ (l : List β) (a : α), P a → P (l.foldl f a) := by
  intro l
  induction l with
  | nil => exact fun a ha => ha
  | cons x xs ih => exact fun a ha => ih _ (hf a x ha)

theorem charListLt_asymm : ∀ {a b : List Char},
    charListLt a b = true → charListLt b a = false := by
  intro a
  induction a with
  | nil =>
      intro b h
      cases b with
      | nil => simp [charListLt] at h
      | cons d ds => simp [charListLt]
  | cons c cs ih =>
      intro b h
      cases b with
      | nil => simp [charListLt] at h
      | cons d ds =>
          by_cases h1 : c.toNat < d.toNat
          · have h2 : ¬ d.toNat < c.toNat := by omega
            simp [charListLt, h1, h2]
          · by_cases h2 : d.toNat < c.toNat
            · simp [charListLt, h1, h2] at h
            · have h' : charListLt cs ds = true := by
                simpa [charListLt, h1, h2] using h
              simpa [charListLt, h1, h2] using ih h'

theorem charListLt_connex : ∀ {a b : List Char}, a ≠ b →
    charListLt a b = true ∨ charListLt b a = true := by
  intro a
  induction a with
  | nil =>
      intro b hne
      cases b with
      | nil => exact absurd rfl hne
      | cons d ds => exact Or.inl (by simp [charListLt])
  | cons c cs ih =>
      intro b hne
      cases b with
      | nil => exact Or.inr (by simp [charListLt])
      | cons d ds =>
          by_cases h1 : c.toNat < d.toNat
          · exact Or.inl (by simp [charListLt, h1])
          · by_cases h2 : d.toNat < c.toNat
            · exact Or.inr (by simp [charListLt, h2, h1])
            · have hv : c.toNat = d.toNat := by omega
              have hcd : c = d := Char.eq_of_val_eq (UInt32.ext hv)
              subst hcd
              have hne' : cs ≠ ds := fun h => hne (by rw [h])
              rcases ih hne' with h | h
              · exact Or.inl (by simpa [charListLt, h1, h2] using h)
              · exact Or.inr (by simpa [charListLt, h1, h2] using h)

theorem charListLt_trans : ∀ {a b c : List Char},
    charListLt a b = true → charListLt b c = true → charListLt a c = true := by
  intro a
  induction a with
  | nil =>
      intro b c hab hbc
      cases c with
      | nil =>
          cases b with
          | nil => simp [charListLt] at hab
          | cons y ys => simp [charListLt] at hbc
      | cons z zs => simp [charListLt]
  | cons x xs ih =>
      intro b c hab hbc
      cases b with
      | nil => simp [charListLt] at hab
      | cons y ys =>
          cases c with
          | nil => simp [charListLt] at hbc
          | cons z zs =>
              by_cases hxy : x.toNat < y.toNat
              · by_cases hyz : y.toNat < z.toNat
                · have hxz : x.toNat < z.toNat := lt_trans hxy hyz
                  simp [charListLt, hxz]
                · by_cases hzy : z.toNat < y.toNat
                  · simp [charListLt, hyz, hzy] at hbc
                  · have hxz : x.toNat < z.toNat := by omega
                    simp [charListLt, hxz]
              · by_cases hyx : y.toNat < x.toNat
                · simp [charListLt, hxy, hyx] at hab
                · have hab' : charListLt xs ys = true := by
                    simpa [charListLt, hxy, hyx] using hab
                  by_cases hyz : y.toNat < z.toNat
                  · have hxz : x.toNat < z.toNat := by omega
                    simp [charListLt, hxz]
                  · by_cases hzy : z.toNat < y.toNat
                    · simp [charListLt, hyz, hzy] at hbc
                    · have hbc' : charListLt ys zs = true := by
                        simpa [charListLt, hyz, hzy] using hbc
                      have hxz : ¬ x.toNat < z.toNat := by omega
                      have hzx : ¬ z.toNat < x.toNat := by omega
                      simpa [charListLt, hxz, hzx] using ih hab' hbc'

theorem strLeB_total (a b : String) : strLeB a b = true ∨ strLeB b a = true := by
  unfold strLeB
  by_cases h : charListLt b.data a.data = true
  · exact Or.inr (by simp [charListLt_asymm h])
  · exact Or.inl (by simp [Bool.not_eq_true] at h; simp [h])

theorem strLeB_antisymm {a b : String} (h1 : strLeB a b = true)
    (h2 : strLeB b a = true) : a = b := by
  unfold strLeB at h1 h2
  by_contra hne
  have hdata : a.data ≠ b.data := fun h => hne (String.ext h)
  rcases charListLt_connex hdata with h | h
  · rw [h] at h2; simp at h2
  · rw [h] at h1; simp at h1

theorem strLeB_trans {a b c : String} (h1 : strLeB a b = true)
    (h2 : strLeB b c = true) : strLeB a c = true := by
  unfold strLeB at h1 h2 ⊢
  rw [Bool.not_eq_true'] at h1 h2 ⊢
  by_contra hca
  rw [Bool.not_eq_false] at hca
  rcases eq_or_ne c.data b.data with he | hne
  · rw [he] at hca
    rw [hca] at h1
    simp at h1
  · rcases charListLt_connex hne with h | h
    · rw [h] at h2
      simp at h2
    · have hba := charListLt_trans h hca
      rw [hba] at h1
      simp at h1

theorem sortPair_le (a b : String) :
    strLeB (sortPair a b).1 (sortPair a b).2 = true := by
  unfold sortPair
  by_cases h : strLeB a b = true
  · rw [if_pos h]; exact h
  · rw [if_neg h]
    rcases strLeB_total a b with h' | h'
    · exact absurd h' h
    · exact h'

theorem sortPair_ne (a b : String) (h : a ≠ b) :
    (sortPair a b).1 ≠ (sortPair a b).2 := by
  unfold sortPair
  by_cases hle : strLeB a b = true
  · rw [if_pos hle]; exact h
  · rw [if_neg hle]; exact h.symm

theorem sortPair_comm (a b : String) : sortPair a b = sortPair b a := by
  unfold sortPair
  by_cases hab : strLeB a b = true
  · by_cases hba : strLeB b a = true
    · have : a = b := strLeB_antisymm hab hba
      subst this; rfl
    · rw [if_pos hab, if_neg hba]
  · by_cases hba : strLeB b a = true
    · rw [if_neg hab, if_pos hba]
    · rcases strLeB_total a b with h | h
      · exact absurd h hab
      · exact absurd h hba

theorem sorted_pair_eq {p q : String × String}
    (hp : strLeB p.1 p.2 = true) (hq : strLeB q.1 q.2 = true)
    (h : (p.1 = q.1 ∧ p.2 = q.2) ∨ (p.1 = q.2 ∧ p.2 = q.1)) : p = q := by
  rcases h with ⟨h1, h2⟩ | ⟨h1, h2⟩
  · exact Prod.ext h1 h2
  · have e1 : strLeB p.1 q.1 = true := by rw [← h2]; exact hp
    have e2 : strLeB q.1 p.1 = true := by rw [h1]; exact hq
    have eq1 : p.1 = q.1 := strLeB_antisymm e1 e2
    exact Prod.ext eq1 (h2.trans (eq1.symm.trans h1))

theorem dirEdgeSet_good (srcRoot : List String)
    (fileImports : List (FPath × List FPath)) :
    goodEdgeSet (dirEdgeSet srcRoot fileImports) := by
  unfold dirEdgeSet
  refine foldl_preserve (P := goodEdgeSet) _ ?_ fileImports [] ⟨by simp, List.nodup_nil⟩
  intro es fi hP
  refine foldl_preserve (P := goodEdgeSet) _ ?_ fi.2 es hP
  intro es imp hP
  show goodEdgeSet (if dirKey srcRoot fi.1 ≠ dirKey srcRoot imp then
      setAdd es (sortPair (dirKey srcRoot fi.1) (dirKey srcRoot imp)) else es)
  by_cases hne : dirKey srcRoot fi.1 ≠ dirKey srcRoot imp
  · rw [if_pos hne]
    refine ⟨?_, nodup_setAdd hP.2⟩
    intro e he
    rcases mem_setAdd.mp he with h | rfl
    · exact hP.1 e h
    · exact ⟨sortPair_le _ _, sortPair_ne _ _ hne⟩
  · rw [if_neg hne]
    exact hP

theorem sameUnord_sortPair_eq {l1 l2 : GraphLink} (h : sameUnordPair l1 l2) :
    sortPair l1.source l1.target = sortPair l2.source l2.target := by
  rcases h with ⟨h1, h2⟩ | ⟨h1, h2⟩
  · rw [h1, h2]
  · rw [h1, h2, sortPair_comm]

theorem fileLinkState_inv (srcRoot : List String)
    (fileImports : List (FPath × List FPath)) (kept : List FPath) :
    fileLinkInv (fileLinkState srcRoot fileImports kept) := by
  unfold fileLinkState
  refine foldl_preserve (P := fileLinkInv) _ ?_ fileImports ([], []) ⟨rfl, List.nodup_nil⟩
  intro acc fi hP
  by_cases h1 : fi.1 ∈ kept
  · rw [if_pos h1]
    refine foldl_preserve (P := fileLinkInv) _ ?_ fi.2 acc hP
    intro acc imp hP
    by_cases h2 : imp ∈ kept
    · rw [if_pos h2]
      show fileLinkInv
        (if sortPair (relPathStr srcRoot fi.1) (relPathStr srcRoot imp) ∈ acc.1 then acc
         else (acc.1 ++ [sortPair (relPathStr srcRoot fi.1) (relPathStr srcRoot imp)],
               acc.2 ++ [⟨relPathStr srcRoot fi.1, relPathStr srcRoot imp⟩]))
      by_cases h3 : sortPair (relPathStr srcRoot fi.1) (relPathStr srcRoot imp) ∈ acc.1
      · rw [if_pos h3]; exact hP
      · rw [if_neg h3]
        obtain ⟨heq, hnd⟩ := hP
        constructor
        · show acc.1 ++ [_] = (acc.2 ++ [_]).map _
          rw [List.map_append, ← heq]
          rfl
        · exact hnd.append (List.nodup_singleton _)
            (fun a ha hax => h3 ((List.mem_singleton.mp hax) ▸ ha))
    · rw [if_neg h2]; exact hP
  · rw [if_neg h1]; exact hP

/- ------------------------------------------------------------------ -/
/- C2, C7, C10                                                         -/
/- ------------------------------------------------------------------ -/

/-- C2 (counterexample): the claim "no self-pairs in both views" fails on
the file view. On the input whose single file `a.js` imports itself — which
the resolver produces for `import './a.js'` inside `a.js` — the file view
emits the self-link (a.js, a.js): `buildFileGraph` deduplicates links but,
unlike `buildDirectoryGraph`, never compares source and target. -/
theorem c2_counterexample :
    (buildFileGraph [["a.js"]] [(["a.js"], [["a.js"]])] [] 10).links =
      [{ source := "a.js", target := "a.js" }] := by
  have hk : fileKeptEntries [(["a.js"], [["a.js"]])] 10 = [(["a.js"], 2)] := by
    unfold fileKeptEntries
    rw [show fileConnCount [(["a.js"], [["a.js"]])] = [(["a.js"], 2)] from rfl]
    rw [List.mergeSort_singleton]
    rfl
  show (fileLinkState [] [(["a.js"], [["a.js"]])]
      ((fileKeptEntries [(["a.js"], [["a.js"]])] 10).map Prod.fst)).2 = _
  rw [hk]
  rfl

/-- C2 (amended): for every input, the directory-view link set has no
self-pairs and no duplicate unordered pairs, and the file-view link set has
no duplicate unordered pairs; the file view can, however, contain a
self-pair when a kept file imports itself (see the counterexample). -/
theorem c2_link_invariants (allFiles : List FPath)
    (fileImports : List (FPath × List FPath)) (srcRoot : List String)
    (maxFiles : Nat) :
    (∀ l ∈ (buildDirectoryGraph allFiles fileImports srcRoot).links,
      l.source ≠ l.target) ∧
    noDupUnordered (buildDirectoryGraph allFiles fileImports srcRoot).links ∧
    noDupUnordered (buildFileGraph allFiles fileImports srcRoot maxFiles).links := by
  obtain ⟨hgood, hnd⟩ := dirEdgeSet_good srcRoot fileImports
  have hlinks : (buildDirectoryGraph allFiles fileImports srcRoot).links =
      (dirEdgeSet srcRoot fileImports).map (fun e => ⟨e.1, e.2⟩) := rfl
  refine ⟨?_, ?_, ?_⟩
  · intro l hl
    rw [hlinks] at hl
    obtain ⟨e, he, rfl⟩ := List.mem_map.mp hl
    exact (hgood e he).2
  · rw [noDupUnordered, hlinks, List.pairwise_map]
    refine hnd.imp_of_mem ?_
    intro e1 e2 he1 he2 hne hsame
    exact hne (sorted_pair_eq (hgood e1 he1).1 (hgood e2 he2).1 hsame)
  · obtain ⟨heq, hnd'⟩ := fileLinkState_inv srcRoot fileImports
      ((fileKeptEntries fileImports maxFiles).map Prod.fst)
    have hfl : (buildFileGraph allFiles fileImports srcRoot maxFiles).links =
        (fileLinkState srcRoot fileImports
          ((fileKeptEntries fileImports maxFiles).map Prod.fst)).2 := rfl
    rw [noDupUnordered, hfl]
    rw [heq] at hnd'
    have hpw := List.pairwise_map.mp hnd'
    refine hpw.imp ?_
    intro l1 l2 hne hsame
    exact hne (sameUnord_sortPair_eq hsame)

/-- C2 (witness for the amended claim): on a two-directory input where
`a/x` imports `b/y`, the single directory link is not a self-pair. -/
theorem c2_link_invariants_witness :
    ∃ l ∈ (buildDirectoryGraph [["a", "x.js"], ["b", "y.js"]]
      [(["a", "x.js"], [["b", "y.js"]])] []).links, l.source ≠ l.target := by
  refine ⟨⟨"a", "b"⟩, by decide, ?_⟩
  exact (c2_link_invariants [["a", "x.js"], ["b", "y.js"]]
    [(["a", "x.js"], [["b", "y.js"]])] [] 10).1 ⟨"a", "b"⟩ (by decide)

/-- C7: the file view keeps at most `maxFiles` nodes, and every kept entry's
connectivity is at least every dropped entry's connectivity (an entry is
dropped when its file is not among the kept keys). Tie-breaking is
deterministic: the builder is a pure function of its input, with stable
`mergeSort` matching the stable JS sort. -/
theorem c7_topN_selection (allFiles : List FPath)
    (fileImports : List (FPath × List FPath)) (srcRoot : List String)
    (maxFiles : Nat) :
    (buildFileGraph allFiles fileImports srcRoot maxFiles).nodes.length ≤ maxFiles ∧
    ∀ p ∈ fileKeptEntries fileImports maxFiles,
      ∀ q ∈ fileConnCount fileImports,
        q.1 ∉ (fileKeptEntries fileImports maxFiles).map Prod.fst → q.2 ≤ p.2 := by
  constructor
  · show ((fileKeptEntries fileImports maxFiles).map _).length ≤ maxFiles
    rw [List.length_map]
    unfold fileKeptEntries
    exact le_trans (List.length_take_le _ _) (le_refl _)
  · intro p hp q hq hdrop
    set le : (FPath × Nat) → (FPath × Nat) → Bool := fun a b => decide (b.2 ≤ a.2) with hle
    have hsorted : ((fileConnCount fileImports).mergeSort le).Pairwise (le · ·) :=
      List.sorted_mergeSort
        (fun a b c hab hbc => by
          rw [hle] at hab hbc ⊢
          exact decide_eq_true_eq.mpr
            (le_trans (of_decide_eq_true hbc) (of_decide_eq_true hab)))
        (fun a b => by
          simp only [hle, Bool.or_eq_true, decide_eq_true_eq]
          exact le_total b.2 a.2)
        (fileConnCount fileImports)
    have hqL : q ∈ (fileConnCount fileImports).mergeSort le :=
      List.mem_mergeSort.mpr hq
    have hsplit := List.take_append_drop maxFiles ((fileConnCount fileImports).mergeSort le)
    have hqdrop : q ∈ ((fileConnCount fileImports).mergeSort le).drop maxFiles := by
      rcases (List.mem_append.mp (hsplit ▸ hqL)) with h | h
      · exact absurd (List.mem_map_of_mem Prod.fst h) hdrop
      · exact h
    have hpair := List.pairwise_append.mp (hsplit ▸ hsorted)
    have := hpair.2.2 p hp q hqdrop
    exact of_decide_eq_true this

/-- C7 (witness): with `a` importing `b` and a cap of 1, the kept entry is
`(a, 1)` and the dropped entry `(b, 1)` has connectivity at most 1. -/
theorem c7_topN_selection_witness : (1 : Nat) ≤ 1 := by
  have hc : fileConnCount [((["a"] : FPath), [(["b"] : FPath)])] =
      [((["a"] : FPath), 1), ((["b"] : FPath), 1)] := rfl
  have hk : fileKeptEntries [((["a"] : FPath), [(["b"] : FPath)])] 1 =
      [((["a"] : FPath), 1)] := by
    unfold fileKeptEntries
    rw [hc, List.mergeSort_of_sorted (by decide)]
    rfl
  refine (c7_topN_selection [] [((["a"] : FPath), [(["b"] : FPath)])] [] 1).2
    (["a"], 1) ?_ (["b"], 1) ?_ ?_
  · rw [hk]; exact List.mem_singleton.mpr rfl
  · rw [hc]; decide
  · rw [hk]; decide

/-- C10: the graph document's `meta.nodeCount` and `meta.linkCount` are
always the directory view's node and link counts, for every requested mode;
in particular the counts for mode "file" equal the counts for mode
"directory", so the `fileNodes`/`fileLinks` sizes are never reflected. -/
theorem c10_meta_counts (repo sparseDir mode : String) (maxFiles : Nat)
    (allFiles : List FPath) (fileImports : List (FPath × List FPath))
    (srcRoot : List String) :
    (parseRepo repo sparseDir mode maxFiles allFiles fileImports srcRoot).meta.nodeCount =
      (buildDirectoryGraph allFiles fileImports srcRoot).nodes.length ∧
    (parseRepo repo sparseDir mode maxFiles allFiles fileImports srcRoot).meta.linkCount =
      (buildDirectoryGraph allFiles fileImports srcRoot).links.length ∧
    (parseRepo repo sparseDir "file" maxFiles allFiles fileImports srcRoot).meta.nodeCount =
      (parseRepo repo sparseDir "directory" maxFiles allFiles fileImports srcRoot).meta.nodeCount ∧
    (parseRepo repo sparseDir "file" maxFiles allFiles fileImports srcRoot).meta.linkCount =
      (parseRepo repo sparseDir "directory" maxFiles allFiles fileImports srcRoot).meta.linkCount :=
  ⟨rfl, rfl, rfl, rfl⟩

/- ------------------------------------------------------------------ -/
/- Lemmas about the gesture interpreter                                -/
/- ------------------------------------------------------------------ -/

theorem pinchFlagPrefix_succ (ds : List ℚ) (i : Nat) (hi : i < ds.length) :
    pinchFlagPrefix ds (i + 1) = pinchStep (pinchFlagPrefix ds i) ds[i] := by
  unfold pinchFlagPrefix
  rw [List.take_succ, List.getElem?_eq_getElem hi]
  rw [show (some ds[i]).toList = [ds[i]] from rfl]
  rw [List.foldl_append]
  simp only [List.foldl_cons, List.foldl_nil]

theorem processActiveHand_snd (env : NumEnv) (lm : Nat → Landmark)
    (handedness : Option String) (st : HandSt) (activated : Bool) :
    ((processActiveHand env lm handedness st activated).2).map
      (fun e => e.handsJoined) = some false := rfl

theorem processActiveHand_fst_activated (env : NumEnv) (lm : Nat → Landmark)
    (handedness : Option String) (st : HandSt) (activated : Bool) :
    (processActiveHand env lm handedness st activated).1.activated = activated := rfl

theorem processHand_handsJoined {env : NumEnv} {lm : Nat → Landmark}
    {handedness : Option String} {st : HandSt} {e : GestureEvent}
    (h : (processHand env lm handedness st).2 = some e) : e.handsJoined = false := by
  unfold processHand at h
  split at h
  · simp at h
  · have hm := congrArg (Option.map (fun e => e.handsJoined)) h
    rw [processActiveHand_snd] at hm
    exact (Option.some.inj hm).symm

theorem detectHandStep_handsJoined {env : NumEnv}
    {acc : HandsState × List GestureEvent} {obs : HandObs}
    (hacc : ∀ e ∈ acc.2, e.handsJoined = false) :
    ∀ e ∈ (detectHandStep env acc obs).2, e.handsJoined = false := by
  intro e he
  unfold detectHandStep at he
  by_cases hL : handLabel obs.handedness = "Right"
  · rw [if_pos hL] at he
    rcases hr : (processHand env obs.lm obs.handedness acc.1.left).2 with _ | ev
    · rw [hr] at he
      exact hacc e (by simpa using he)
    · rw [hr] at he
      rcases (by simpa using he : e ∈ acc.2 ∨ e = ev) with h | rfl
      · exact hacc e h
      · exact processHand_handsJoined hr
  · rw [if_neg hL] at he
    rcases hr : (processHand env obs.lm obs.handedness acc.1.right).2 with _ | ev
    · rw [hr] at he
      exact hacc e (by simpa using he)
    · rw [hr] at he
      rcases (by simpa using he : e ∈ acc.2 ∨ e = ev) with h | rfl
      · exact hacc e h
      · exact processHand_handsJoined hr

theorem processHand_activated (env : NumEnv) (lm : Nat → Landmark)
    (handedness : Option String) (st : HandSt) :
    (processHand env lm handedness st).1.activated =
      (st.activated || isPalmUp lm (handLabel handedness)) := by
  unfold processHand
  split
  · rfl
  · rw [processActiveHand_fst_activated]

theorem detectHandStep_mono {env : NumEnv}
    {acc : HandsState × List GestureEvent} {obs : HandObs} :
    (acc.1.left.activated = true →
      (detectHandStep env acc obs).1.left.activated = true) ∧
    (acc.1.right.activated = true →
      (detectHandStep env acc obs).1.right.activated = true) := by
  unfold detectHandStep
  by_cases hL : handLabel obs.handedness = "Right"
  · rw [if_pos hL]
    constructor
    · intro h
      show (processHand env obs.lm obs.handedness acc.1.left).1.activated = true
      rw [processHand_activated, h, Bool.true_or]
    · exact fun h => h
  · rw [if_neg hL]
    constructor
    · exact fun h => h
    · intro h
      show (processHand env obs.lm obs.handedness acc.1.right).1.activated = true
      rw [processHand_activated, h, Bool.true_or]

/- ------------------------------------------------------------------ -/
/- C3, C4, C6                                                          -/
/- ------------------------------------------------------------------ -/

/-- C3: pinch hysteresis. Along any per-hand sequence of smoothed pinch
distances (starting not pinching), the flag's next value is characterized
by: from a non-pinching state it becomes true exactly when the smoothed
distance drops below 0.22; from a pinching state it remains true exactly
while the smoothed distance stays below 0.32 (so it clears only at or
above 0.32, and cannot flicker while hovering between the thresholds). -/
theorem c3_pinch_hysteresis (ds : List ℚ) (i : Nat) (hi : i < ds.length) :
    (pinchFlagPrefix ds i = false →
      (pinchFlagPrefix ds (i + 1) = true ↔ ds[i] < PINCH_ENTER)) ∧
    (pinchFlagPrefix ds i = true →
      (pinchFlagPrefix ds (i + 1) = true ↔ ds[i] < PINCH_EXIT)) := by
  constructor
  · intro h
    rw [pinchFlagPrefix_succ ds i hi, h]
    unfold pinchStep
    simp
  · intro h
    rw [pinchFlagPrefix_succ ds i hi, h]
    unfold pinchStep
    simp

/-- C3 (witness): on the spec's synthetic sequence — cross 0.22, hover at
0.27 — the flag is still true after the hovering frame. -/
theorem c3_pinch_hysteresis_witness :
    pinchFlagPrefix [1/2, 1/5, 27/100, 27/100, 33/100] 3 = true := by
  have hlen : (2 : Nat) < ([1/2, 1/5, 27/100, 27/100, 33/100] : List ℚ).length := by
    simp
  have hflag : pinchFlagPrefix [1/2, 1/5, 27/100, 27/100, 33/100] 2 = true := by
    norm_num [pinchFlagPrefix, pinchStep, PINCH_ENTER, PINCH_EXIT]
  have hlt : ([1/2, 1/5, 27/100, 27/100, 33/100] : List ℚ)[2] < PINCH_EXIT := by
    norm_num [PINCH_EXIT]
  exact ((c3_pinch_hysteresis [1/2, 1/5, 27/100, 27/100, 33/100] 2 hlen).2 hflag).mpr hlt

/-- C4: the Gesture Interpreter never emits `handsJoined`. For every
environment, state and detection frame, every emitted event carries
`handsJoined = false`; in particular no input frame — including one with
both hands brought together — produces the `\x7b handsJoined: true \x7d`
recenter signal that the camera layer listens for. -/
theorem c4_no_handsJoined_event (env : NumEnv) (s : HandsState)
    (frame : List HandObs) :
    ∀ e ∈ (detectStep env s frame).2, e.handsJoined = false := by
  cases frame with
  | nil =>
      intro e he
      rw [List.mem_singleton.mp he]
  | cons o os =>
      have h := foldl_preserve
        (P := fun acc : HandsState × List GestureEvent =>
          ∀ e ∈ acc.2, e.handsJoined = false)
        (detectHandStep env)
        (fun a b hP => detectHandStep_handsJoined hP)
        (o :: os) (s, []) (fun e he => absurd he (List.not_mem_nil e))
      exact h

/-- C4 (witness): on a concrete frame with both hands together (palms
shown, same palm position), every emitted event has `handsJoined = false`. -/
theorem c4_no_handsJoined_witness :
    ((detectStep envZero ⟨initHandSt, initHandSt⟩ frameHandsTogether).2.all
      (fun e => !e.handsJoined)) = true :=
  List.all_eq_true.mpr (fun e he => by
    have h := c4_no_handsJoined_event envZero ⟨initHandSt, initHandSt⟩
      frameHandsTogether e he
    simp [h])

/-- C6 (counterexample): the claim "reset on the first detection frame in
which that hand is absent, independent of whether the other hand is still
present" fails. With the left hand latched Active and a frame containing
only a right hand (MediaPipe label "Left"), the left hand's Active state
survives: `detect()` resets hand state only when no hands at all are
detected. -/
theorem c6_counterexample :
    handLabel (some "Left") ≠ "Right" ∧
    (detectStep envZero ⟨{ initHandSt with activated := true }, initHandSt⟩
      [⟨lmPalmLeft, some "Left"⟩]).1.left.activated = true := by
  constructor
  · decide
  · rfl

/-- C6 (amended): once a hand's Active state is set it stays Active through
every frame in which any hand is detected, regardless of palm orientation
or which hands appear; it is reset to Inactive exactly on a detection frame
with no hands at all, which resets both hands at once. -/
theorem c6_activation_latch (env : NumEnv) (s : HandsState)
    (frame : List HandObs) :
    (frame ≠ [] →
      (s.left.activated = true → (detectStep env s frame).1.left.activated = true) ∧
      (s.right.activated = true → (detectStep env s frame).1.right.activated = true)) ∧
    (frame = [] →
      (detectStep env s frame).1.left.activated = false ∧
      (detectStep env s frame).1.right.activated = false) := by
  constructor
  · intro hne
    cases frame with
    | nil => exact absurd rfl hne
    | cons o os =>
        have h := foldl_preserve
          (P := fun acc : HandsState × List GestureEvent =>
            (s.left.activated = true → acc.1.left.activated = true) ∧
            (s.right.activated = true → acc.1.right.activated = true))
          (detectHandStep env)
          (fun a b hP => ⟨fun hh => detectHandStep_mono.1 (hP.1 hh),
            fun hh => detectHandStep_mono.2 (hP.2 hh)⟩)
          (o :: os) (s, []) ⟨fun hh => hh, fun hh => hh⟩
        exact h
  · intro h
    subst h
    exact ⟨rfl, rfl⟩

/-- C6 (witness for the amended claim): a latched left hand stays Active
through a two-hand frame, and an empty frame resets both hands. -/
theorem c6_activation_latch_witness :
    (detectStep envZero ⟨{ initHandSt with activated := true }, initHandSt⟩
      frameHandsTogether).1.left.activated = true ∧
    (detectStep envZero ⟨{ initHandSt with activated := true }, initHandSt⟩
      []).1.left.activated = false := by
  constructor
  · exact ((c6_activation_latch envZero
      ⟨{ initHandSt with activated := true }, initHandSt⟩ frameHandsTogether).1
      (by simp [frameHandsTogether])).1 rfl
  · exact ((c6_activation_latch envZero
      ⟨{ initHandSt with activated := true }, initHandSt⟩ []).2 rfl).1

/- ------------------------------------------------------------------ -/
/- Lemmas about the camera state machine                               -/
/- ------------------------------------------------------------------ -/

theorem fireCooldown_camCtl (s : CamState) (t : ℚ) :
    camCtl (fireCooldown s t) = camCtl s := by
  unfold fireCooldown
  split
  · split <;> rfl
  · rfl

theorem fireCooldown_camTargets (s : CamState) (t : ℚ) :
    camTargets (fireCooldown s t) = camTargets s := by
  unfold fireCooldown
  split
  · split <;> rfl
  · rfl

theorem fireCooldown_handActive (s : CamState) (t : ℚ) :
    (fireCooldown s t).handActive = s.handActive :=
  congrArg (fun p => p.1) (fireCooldown_camCtl s t)

theorem fireCooldown_noHandTimer (s : CamState) (t : ℚ) :
    (fireCooldown s t).noHandTimer = s.noHandTimer :=
  congrArg (fun p => p.2.1) (fireCooldown_camCtl s t)

theorem fireCooldown_enableCount (s : CamState) (t : ℚ) :
    (fireCooldown s t).enableCount = s.enableCount :=
  congrArg (fun p => p.2.2.1) (fireCooldown_camCtl s t)

theorem fireCooldown_controlsEnabled (s : CamState) (t : ℚ) :
    (fireCooldown s t).controlsEnabled = s.controlsEnabled :=
  congrArg (fun p => p.2.2.2.1) (fireCooldown_camCtl s t)

theorem fireCooldown_pending {s : CamState} {t d : ℚ}
    (h : s.resetCooldown = some d) (hlt : t < d) : fireCooldown s t = s := by
  unfold fireCooldown
  rw [h]
  exact if_neg (not_le.mpr hlt)

theorem fireNoHandTimer_camTargets (s : CamState) (t : ℚ) :
    camTargets (fireNoHandTimer s t) = camTargets s := by
  unfold fireNoHandTimer
  split
  · split <;> rfl
  · rfl

theorem fireNoHandTimer_resetCooldown (s : CamState) (t : ℚ) :
    (fireNoHandTimer s t).resetCooldown = s.resetCooldown := by
  unfold fireNoHandTimer
  split
  · split <;> rfl
  · rfl

theorem fireNoHandTimer_none {s : CamState} (t : ℚ)
    (h : s.noHandTimer = none) : fireNoHandTimer s t = s := by
  unfold fireNoHandTimer
  rw [h]

theorem fireNoHandTimer_pending {s : CamState} {t d : ℚ}
    (h : s.noHandTimer = some d) (hlt : t < d) : fireNoHandTimer s t = s := by
  unfold fireNoHandTimer
  rw [h]
  exact if_neg (not_le.mpr hlt)

theorem fireNoHandTimer_due {s : CamState} {t d : ℚ}
    (h : s.noHandTimer = some d) (hle : d ≤ t) :
    fireNoHandTimer s t = deactivateHands s := by
  unfold fireNoHandTimer
  rw [h]
  exact if_pos hle

theorem fireTimers_camTargets (s : CamState) (t : ℚ) :
    camTargets (fireTimers s t) = camTargets s :=
  (fireNoHandTimer_camTargets _ _).trans (fireCooldown_camTargets _ _)

theorem fireTimers_of_none {s : CamState} (t : ℚ) (hn : s.noHandTimer = none) :
    fireTimers s t = fireCooldown s t := by
  unfold fireTimers
  exact fireNoHandTimer_none t ((fireCooldown_noHandTimer s t).trans hn)

theorem leftHandUpdate_camCtl (piQ : ℚ) (s : CamState) (e : GestureEvent) :
    camCtl (leftHandUpdate piQ s e) = camCtl s := by
  unfold leftHandUpdate
  split <;> rfl

theorem rightHandUpdate_camCtl (piQ : ℚ) (s : CamState) (e : GestureEvent) :
    camCtl (rightHandUpdate piQ s e) = camCtl s := by
  unfold rightHandUpdate
  split <;> (dsimp only; split <;> rfl)

theorem handleGesture_noHand (piQ : ℚ) (s : CamState) (t : ℚ) :
    handleGesture piQ s t noHandEvent =
      { s with
        handControlling := false,
        rotAnchorX := none, rotAnchorY := none,
        panAnchorX := none, panAnchorY := none,
        noHandTimer :=
          if s.noHandTimer = none ∧ s.handActive = true then some (t + NO_HAND_TIMEOUT)
          else s.noHandTimer } := by
  unfold handleGesture
  rw [if_neg (fun hcon => Bool.false_ne_true hcon.1)]
  rw [if_pos (show noHandEvent.detected = false from rfl)]

theorem handleGesture_detected_camCtl (piQ : ℚ) (s : CamState) (t : ℚ)
    (e : GestureEvent) (hdet : e.detected = true) (hhj : e.handsJoined = false) :
    camCtl (handleGesture piQ s t e) =
      (s.handActive, none, s.enableCount, false, true) := by
  unfold handleGesture
  rw [if_neg (by rintro ⟨h1, -⟩; rw [hhj] at h1; exact Bool.false_ne_true h1)]
  rw [if_neg (by simp [hdet])]
  dsimp only
  split
  · rw [rightHandUpdate_camCtl]
    split
    · rw [leftHandUpdate_camCtl]
      rfl
    · rfl
  · split
    · rw [leftHandUpdate_camCtl]
      rfl
    · rfl

theorem idlePhase_step (piQ : ℚ) (s0 : CamState) (dl : ℚ) (s : CamState) (t : ℚ)
    (h : idlePhase s0 dl s) :
    idlePhase s0 dl (stepAt piQ s t noHandEvent) ∧
    (dl ≤ t → idleDone s0 (stepAt piQ s t noHandEvent)) ∧
    (idleDone s0 s → idleDone s0 (stepAt piQ s t noHandEvent)) := by
  have hcc := fireCooldown_camCtl s t
  have hA := fireCooldown_handActive s t
  have hN := fireCooldown_noHandTimer s t
  have hE := fireCooldown_enableCount s t
  have hC := fireCooldown_controlsEnabled s t
  have hAuto : (fireCooldown s t).autoRotate = s.autoRotate := by
    unfold fireCooldown
    split
    · split <;> rfl
    · rfl
  rcases h with ⟨phA, phN, phC, phE⟩ | hdone
  · -- timer pending at deadline dl
    rcases le_or_lt dl t with hdue | hwait
    · -- the timer fires: deactivation happens in fireTimers
      have hfire : fireTimers s t = deactivateHands (fireCooldown s t) := by
        unfold fireTimers
        exact fireNoHandTimer_due (hN.trans phN) hdue
      have hdl : idleDone s0 (stepAt piQ s t noHandEvent) := by
        unfold stepAt
        rw [hfire, handleGesture_noHand]
        have hcnt : (deactivateHands (fireCooldown s t)).enableCount = s0.enableCount + 1 := by
          show (if (fireCooldown s t).controlsEnabled then (fireCooldown s t).enableCount
            else (fireCooldown s t).enableCount + 1) = s0.enableCount + 1
          rw [hC, phC, hE, phE]
          rfl
        refine ⟨rfl, ?_, rfl, rfl, hcnt⟩
        show (if (deactivateHands (fireCooldown s t)).noHandTimer = none ∧
            (deactivateHands (fireCooldown s t)).handActive = true
          then some (t + NO_HAND_TIMEOUT)
          else (deactivateHands (fireCooldown s t)).noHandTimer) = none
        rw [if_neg (by rintro ⟨-, hx⟩; exact Bool.false_ne_true hx)]
        rfl
      exact ⟨Or.inr hdl, fun _ => hdl, fun _ => hdl⟩
    · -- not yet due: the timer stays pending
      have hkeep : fireTimers s t = fireCooldown s t := by
        unfold fireTimers
        exact fireNoHandTimer_pending (hN.trans phN) hwait
      have hpend : (stepAt piQ s t noHandEvent).handActive = true ∧
          (stepAt piQ s t noHandEvent).noHandTimer = some dl ∧
          (stepAt piQ s t noHandEvent).controlsEnabled = false ∧
          (stepAt piQ s t noHandEvent).enableCount = s0.enableCount := by
        unfold stepAt
        rw [hkeep, handleGesture_noHand]
        refine ⟨hA.trans phA, ?_, hC.trans phC, hE.trans phE⟩
        show (if (fireCooldown s t).noHandTimer = none ∧
            (fireCooldown s t).handActive = true
          then some (t + NO_HAND_TIMEOUT) else (fireCooldown s t).noHandTimer) = some dl
        rw [if_neg (by rintro ⟨hx, -⟩; rw [hN, phN] at hx; exact Option.noConfusion hx)]
        rw [hN, phN]
      refine ⟨Or.inl hpend, fun hle => absurd hle (not_le.mpr hwait), ?_⟩
      rintro ⟨hx, -⟩
      rw [phA] at hx
      exact absurd hx (by simp)
  · -- already deactivated: everything is stable
    obtain ⟨dA, dN, dC, dAuto, dE⟩ := hdone
    have hkeep : fireTimers s t = fireCooldown s t :=
      fireTimers_of_none t dN
    have hstay : idleDone s0 (stepAt piQ s t noHandEvent) := by
      unfold stepAt
      rw [hkeep, handleGesture_noHand]
      refine ⟨hA.trans dA, ?_, hC.trans dC, hAuto.trans dAuto, hE.trans dE⟩
      show (if (fireCooldown s t).noHandTimer = none ∧
          (fireCooldown s t).handActive = true
        then some (t + NO_HAND_TIMEOUT) else (fireCooldown s t).noHandTimer) = none
      rw [if_neg (by rintro ⟨-, hx⟩; rw [hA, dA] at hx; exact Bool.false_ne_true hx)]
      rw [hN, dN]
    exact ⟨Or.inr hstay, fun _ => hstay, fun _ => hstay⟩

theorem idlePhase_run (piQ : ℚ) (s0 : CamState) (dl : ℚ) :
    ∀ (evs : List (ℚ × GestureEvent)) (s : CamState),
      (∀ te ∈ evs, te.2 = noHandEvent) → idlePhase s0 dl s →
      idlePhase s0 dl (runTrace piQ s evs) ∧
      ((∃ te ∈ evs, dl ≤ te.1) → idleDone s0 (runTrace piQ s evs)) ∧
      (idleDone s0 s → idleDone s0 (runTrace piQ s evs)) := by
  intro evs
  induction evs with
  | nil =>
      intro s _ h
      exact ⟨h, fun ⟨te, hte, _⟩ => absurd hte (List.not_mem_nil te), fun hd => hd⟩
  | cons te rest ih =>
      intro s hall h
      have hte2 : te.2 = noHandEvent := hall te (List.mem_cons_self te rest)
      have hstep := idlePhase_step piQ s0 dl s te.1 h
      have hrun : runTrace piQ s (te :: rest) =
          runTrace piQ (stepAt piQ s te.1 noHandEvent) rest := by
        unfold runTrace
        rw [List.foldl_cons, hte2]
      have hrest := ih (stepAt piQ s te.1 noHandEvent)
        (fun x hx => hall x (List.mem_cons_of_mem te hx)) hstep.1
      rw [hrun]
      refine ⟨hrest.1, ?_, fun hd => hrest.2.2 (hstep.2.2 hd)⟩
      rintro ⟨te', hte', hle⟩
      rcases List.mem_cons.mp hte' with rfl | hmem
      · exact hrest.2.2 (hstep.2.1 hle)
      · exact hrest.2.1 ⟨te', hmem, hle⟩

/- ------------------------------------------------------------------ -/
/- C8, C9                                                              -/
/- ------------------------------------------------------------------ -/

/-- C8: idle timeout. From a state with gesture control active, no pending
timer and the external controls disabled: (1) the first no-hand event at
`t0` arms the auto-off timer for `t0 + 3000` ms without deactivating
anything; (2) running any further sequence of no-hand events that reaches
the deadline leaves the machine Idle — control off, timer clear, external
controls re-enabled with auto-rotation — with the disabled-to-enabled
transition counted exactly once; (3) a detected event before a pending
deadline cancels the timer, leaving activation and the transition count
untouched. -/
theorem c8_idle_timeout (piQ : ℚ) (s : CamState) (t0 : ℚ)
    (ha : s.handActive = true) (hn : s.noHandTimer = none)
    (hc : s.controlsEnabled = false) :
    ((stepAt piQ s t0 noHandEvent).noHandTimer = some (t0 + NO_HAND_TIMEOUT) ∧
     (stepAt piQ s t0 noHandEvent).handActive = true ∧
     (stepAt piQ s t0 noHandEvent).controlsEnabled = false ∧
     (stepAt piQ s t0 noHandEvent).handControlling = false ∧
     (stepAt piQ s t0 noHandEvent).enableCount = s.enableCount) ∧
    (∀ evs, (∀ te ∈ evs, te.2 = noHandEvent) →
      (∃ te ∈ evs, t0 + NO_HAND_TIMEOUT ≤ te.1) →
      idleDone s (runTrace piQ (stepAt piQ s t0 noHandEvent) evs)) ∧
    (∀ (s' : CamState) (d t : ℚ) (e : GestureEvent),
      s'.noHandTimer = some d → t < d → e.detected = true → e.handsJoined = false →
      (stepAt piQ s' t e).noHandTimer = none ∧
      (stepAt piQ s' t e).handActive = s'.handActive ∧
      (stepAt piQ s' t e).enableCount = s'.enableCount) := by
  have hp1 : (stepAt piQ s t0 noHandEvent).noHandTimer = some (t0 + NO_HAND_TIMEOUT) ∧
      (stepAt piQ s t0 noHandEvent).handActive = true ∧
      (stepAt piQ s t0 noHandEvent).controlsEnabled = false ∧
      (stepAt piQ s t0 noHandEvent).handControlling = false ∧
      (stepAt piQ s t0 noHandEvent).enableCount = s.enableCount := by
    unfold stepAt
    rw [fireTimers_of_none t0 hn, handleGesture_noHand]
    refine ⟨?_, (fireCooldown_handActive s t0).trans ha,
      (fireCooldown_controlsEnabled s t0).trans hc, rfl,
      fireCooldown_enableCount s t0⟩
    show (if (fireCooldown s t0).noHandTimer = none ∧
        (fireCooldown s t0).handActive = true
      then some (t0 + NO_HAND_TIMEOUT) else (fireCooldown s t0).noHandTimer) =
        some (t0 + NO_HAND_TIMEOUT)
    rw [if_pos ⟨(fireCooldown_noHandTimer s t0).trans hn,
      (fireCooldown_handActive s t0).trans ha⟩]
  refine ⟨hp1, ?_, ?_⟩
  · intro evs hall hex
    exact (idlePhase_run piQ s (t0 + NO_HAND_TIMEOUT) evs
      (stepAt piQ s t0 noHandEvent) hall
      (Or.inl ⟨hp1.2.1, hp1.1, hp1.2.2.1, hp1.2.2.2.2⟩)).2.1 hex
  · intro s' d t e hd hlt hdet hhj
    have hkeep : fireTimers s' t = fireCooldown s' t := by
      unfold fireTimers
      exact fireNoHandTimer_pending ((fireCooldown_noHandTimer s' t).trans hd) hlt
    have hctl := handleGesture_detected_camCtl piQ (fireCooldown s' t) t e hdet hhj
    unfold stepAt
    rw [hkeep]
    exact ⟨congrArg (fun p => p.2.1) hctl,
      (congrArg (fun p => p.1) hctl).trans (fireCooldown_handActive s' t),
      (congrArg (fun p => p.2.2.1) hctl).trans (fireCooldown_enableCount s' t)⟩

/-- C8 (witness): from HandControlling, a no-hand frame at 0 ms followed by
one at 4000 ms deactivates: Idle, controls re-enabled, counted once. -/
theorem c8_idle_timeout_witness :
    idleDone handControllingState
      (runTrace 0 (stepAt 0 handControllingState 0 noHandEvent)
        [(4000, noHandEvent)]) := by
  refine (c8_idle_timeout 0 handControllingState 0 rfl rfl rfl).2.1
    [(4000, noHandEvent)] ?_ ?_
  · intro te hte
    rw [List.mem_singleton.mp hte]
  · exact ⟨(4000, noHandEvent), List.mem_singleton.mpr rfl,
      by norm_num [NO_HAND_TIMEOUT]⟩

/-- C9: recenter effect and rate limit. When a hands-joined event arrives
with no active cooldown, the target orbit angles and look-at offsets reset
to their defaults (0, 0.3, 0, 0), all rotation/pan anchors clear, the
orbit-distance target is left unchanged, and a 1.5 s cooldown starts; a
hands-joined event arriving while a cooldown deadline is still in the
future leaves every target unchanged. -/
theorem c9_recenter_rate_limit (piQ : ℚ) (s : CamState) (t : ℚ) :
    ((fireTimers s t).resetCooldown = none →
      (stepAt piQ s t handsJoinedEvent).tOrbitX = 0 ∧
      (stepAt piQ s t handsJoinedEvent).tOrbitY = 3/10 ∧
      (stepAt piQ s t handsJoinedEvent).tLookX = 0 ∧
      (stepAt piQ s t handsJoinedEvent).tLookY = 0 ∧
      (stepAt piQ s t handsJoinedEvent).tOrbitDist = s.tOrbitDist ∧
      (stepAt piQ s t handsJoinedEvent).rotAnchorX = none ∧
      (stepAt piQ s t handsJoinedEvent).rotAnchorY = none ∧
      (stepAt piQ s t handsJoinedEvent).panAnchorX = none ∧
      (stepAt piQ s t handsJoinedEvent).panAnchorY = none ∧
      (stepAt piQ s t handsJoinedEvent).resetCooldown =
        some (t + RESET_COOLDOWN_MS)) ∧
    (∀ d, s.resetCooldown = some d → t < d →
      camTargets (stepAt piQ s t handsJoinedEvent) = camTargets s) := by
  constructor
  · intro hnone
    unfold stepAt handleGesture
    rw [if_pos ⟨rfl, hnone⟩]
    refine ⟨rfl, rfl, rfl, rfl, ?_, rfl, rfl, rfl, rfl, rfl⟩
    show (fireTimers s t).tOrbitDist = s.tOrbitDist
    exact congrArg (fun p => p.2.2.1) (fireTimers_camTargets s t)
  · intro d hd hlt
    have h1 : fireCooldown s t = s := fireCooldown_pending hd hlt
    have h2 : (fireNoHandTimer s t).resetCooldown = some d :=
      (fireNoHandTimer_resetCooldown s t).trans hd
    unfold stepAt fireTimers
    rw [h1]
    unfold handleGesture
    rw [if_neg (by rintro ⟨-, hx⟩; rw [h2] at hx; exact Option.noConfusion hx)]
    rw [if_pos (show handsJoinedEvent.detected = false from rfl)]
    show camTargets (fireNoHandTimer s t) = camTargets s
    exact fireNoHandTimer_camTargets s t

/-- C9 (witness): at the initial state an accepted recenter keeps the zoom
target and arms the cooldown. -/
theorem c9_recenter_rate_limit_witness :
    (stepAt 0 initCamState 0 handsJoinedEvent).tOrbitDist =
      initCamState.tOrbitDist ∧
    (stepAt 0 initCamState 0 handsJoinedEvent).resetCooldown =
      some (0 + RESET_COOLDOWN_MS) := by
  have h := (c9_recenter_rate_limit 0 initCamState 0).1 rfl
  exact ⟨h.2.2.2.2.1, h.2.2.2.2.2.2.2.2.2⟩

/- ------------------------------------------------------------------ -/
/- C5                                                                  -/
/- ------------------------------------------------------------------ -/

/-- C5 (code bug): the credential redaction has a hole in `parseRepo`. When
the clone fails with empty stderr (for example killed by the 60 s timeout
before producing output), the thrown message falls back — via
`stderr || err.message` — to Node's `Command failed: <command>` text, which
embeds the authenticated clone URL; the token then appears verbatim, for
every token value, in the error surfaced to `parseRepo`'s caller (and
logged by the CLI entry point), despite the adjacent
`Redact token from error messages` comment. -/
theorem c5_parseRepo_token_leak (token repo cloneDir : List Char) :
    token <:+: parseRepoCloneErrorMsg token repo cloneDir [] := by
  unfold parseRepoCloneErrorMsg
  have h0 : redactCloneStderr [] = [] := by
    unfold redactCloneStderr
    rw [replaceScan]
  rw [h0]
  show token <:+: ("git clone failed: ".data ++ commandFailedMsg token repo cloneDir)
  unfold commandFailedMsg cloneUrl
  refine ⟨"git clone failed: ".data ++
    "Command failed: git clone --depth 1 --filter=blob:none --sparse \"".data ++
    "https://x-access-token:".data,
    "@github.com/".data ++ repo ++ ".git".data ++ "\" \"".data ++ cloneDir ++
      "\"".data, ?_⟩
  simp [List.append_assoc]

end Starbase
